import Mathlib

/-!
# Folder wizard (src/mirall/folderwizard.cpp)

A shallow embedding of the two wizard pages of the folder wizard:

* `FolderWizardSourcePage::isComplete`, the validator of the source page
  (local directory and alias against the already configured folders);
* `FolderWizardTargetPage`, its `isComplete` and the three slots that drive
  the remote-folder existence check (`slotFolderTextChanged`,
  `slotTimerFires`, `slotDirCheckReply`).

What the code obtains from Qt (`QFileInfo`, `QUrl`) is taken as a parameter:
the structure `Env` below.  `QString` is `String`, `tr` is taken to return the
source text unchanged, and `tr("..%1..").arg(x)` is the text with `x` spliced in
at the place marker.
-/

namespace Mirall

/-! ## What the code reads from Qt -/

/-- Answers of the Qt classes used by the wizard pages.
`isDir p` is `QFileInfo(p).isDir()`, `absoluteFilePath p` is
`QFileInfo(p).absoluteFilePath()`, `fileInfoEq a b` is
`QFileInfo(a) == QFileInfo(b)`, `urlIsValid u` is `QUrl(u).isValid()` and
`urlScheme u` is `QUrl(u).scheme()`. -/
structure Env where
  isDir : String → Bool
  absoluteFilePath : String → String
  fileInfoEq : String → String → Bool
  urlIsValid : String → Bool
  urlScheme : String → String

/-- The part of a `Folder` the wizard reads: `path()` and `alias()` (the word
`alias` is reserved, the field is `aliasName`). -/
structure Folder where
  path : String
  aliasName : String
deriving DecidableEq, Repr

/-- A `QLabel` as far as the pages use it: shown or hidden, and its text. -/
structure Label where
  visible : Bool
  text : String
deriving DecidableEq, Repr

/-! ## Messages -/

/-- Text of `tr("No local directory selected!")`. -/
def msgNoLocalDir : String := "No local directory selected!"

/-- Text of the duplicate-path message with `%1` replaced by `abs`. -/
def msgDupPath (abs : String) : String :=
  "The local path " ++ abs ++ " is already a upload folder.<br/>Please pick another one!"

/-- Text of the empty-alias message. -/
def msgEmptyAlias : String :=
  "The alias can not be empty. Please provide a descriptive alias word."

/-- Text of the duplicate-alias message with `%1` replaced by `al`. -/
def msgDupAlias (al : String) : String :=
  "<br/>The alias " ++ al ++ " is already in use. Please change it to something different."

/-- Text shown by `slotDirCheckReply` when the folder does not exist. -/
def msgNotAvailable : String :=
  "The folder is not available on your ownCloud. Please create it."

/-! ## Source page -/

/-- State read and written by `FolderWizardSourcePage::isComplete`.
In `_folderMap`, `none` is the null pointer, `some l` lists the
values of the map in iteration order. -/
structure FolderWizardSourcePage where
  localFolderLineEdit : String
  aliasLineEdit : String
  _folderMap : Option (List Folder)
  warnLabel : Label

/-- The first `while` loop of `isComplete` (lines 66-74), run from the
iterator position given by the list, on the loop variables `(isOk, warnString)`.
The loop condition is `isOk && i != map->constEnd()`. -/
def pathLoop (env : Env) (sel : String) : List Folder → Bool × String → Bool × String
  | [], st => st
  | f :: rest, (isOk, warnString) =>
    if isOk then
      if env.fileInfoEq f.path sel then
        pathLoop env sel rest (false, warnString ++ msgDupPath (env.absoluteFilePath sel))
      else
        pathLoop env sel rest (isOk, warnString)
    else
      (isOk, warnString)

/-- The second `while` loop of `isComplete` (lines 86-97) on the loop
variables `(isOk, goon, warnString)`.  The loop condition is
`goon && i != map->constEnd()`.  The values of the map are folders: the test
`if( f )` comes after `f->alias()` has been read for the debug output, and the
first loop reads `f->path()` without a test. -/
def aliasLoop (al : String) : List Folder → Bool × Bool × String → Bool × Bool × String
  | [], st => st
  | f :: rest, (isOk, goon, warnString) =>
    if goon then
      if f.aliasName = al then
        aliasLoop al rest (false, false, warnString ++ msgDupAlias al)
      else
        aliasLoop al rest (isOk, goon, warnString)
    else
      (isOk, goon, warnString)

/-- The body of `FolderWizardSourcePage::isComplete`: the returned value and the
warning label as the call leaves it. -/
def FolderWizardSourcePage.isComplete (env : Env) (p : FolderWizardSourcePage) : Bool × Label :=
  let sel := p.localFolderLineEdit
  let isOk := env.isDir sel
  let warnString := if !isOk then msgNoLocalDir else ""
  match p._folderMap with
  | none => (false, p.warnLabel)
  | some map =>
    let st1 := if isOk then pathLoop env sel map (isOk, warnString) else (isOk, warnString)
    let al := p.aliasLineEdit
    let st2 := if al.isEmpty then (false, st1.2 ++ msgEmptyAlias) else st1
    let st3 := aliasLoop al map (st2.1, true, st2.2)
    if st3.1 then
      (true, { visible := false, text := "" })
    else
      (false, { visible := true, text := st3.2.2 })

/-! ## Target page -/

/-- State of `FolderWizardTargetPage` as far as `isComplete` and the slots use
it.  `_timer` is the single-shot timer:
`none` when it is not running, `some r` when it fires after `r` more
milliseconds.  `checkDirectoryCalls` records the arguments of the calls
`_ownCloudDirCheck->checkDirectory(..)` in the order they were made, and
`completeChangedEmitted` counts `emit completeChanged()`. -/
structure FolderWizardTargetPage where
  localFolderRadioBtn : Bool
  urlFolderRadioBtn : Bool
  OCRadioBtn : Bool
  localFolder2LineEdit : String
  urlFolderLineEdit : String
  OCFolderLineEdit : String
  _dirChecked : Bool
  _timer : Option Nat
  warnLabel : Label
  checkDirectoryCalls : List String
  completeChangedEmitted : Nat

namespace FolderWizardTargetPage

/-- The body of `FolderWizardTargetPage::isComplete`. -/
def isComplete (env : Env) (p : FolderWizardTargetPage) : Bool :=
  if p.localFolderRadioBtn then
    env.isDir p.localFolder2LineEdit
  else if p.urlFolderRadioBtn then
    env.urlIsValid p.urlFolderLineEdit &&
      (env.urlScheme p.urlFolderLineEdit == "sftp" || env.urlScheme p.urlFolderLineEdit == "smb")
  else if p.OCRadioBtn then
    if p.OCFolderLineEdit.isEmpty then true else p._dirChecked
  else
    false

/-- The body of `FolderWizardTargetPage::showWarn`. -/
def showWarn (msg : String) (p : FolderWizardTargetPage) : FolderWizardTargetPage :=
  { p with warnLabel := ⟨true, msg⟩ }

/-- The body of `FolderWizardTargetPage::slotFolderTextChanged`. -/
def slotFolderTextChanged (t : String) (p : FolderWizardTargetPage) : FolderWizardTargetPage :=
  let p1 := { p with _dirChecked := false, completeChangedEmitted := p.completeChangedEmitted + 1 }
  if t.isEmpty then
    { p1 with _timer := none, warnLabel := ⟨false, p1.warnLabel.text⟩ }
  else
    { p1 with _timer := some 500 }

/-- The body of `FolderWizardTargetPage::slotTimerFires`. -/
def slotTimerFires (p : FolderWizardTargetPage) : FolderWizardTargetPage :=
  let folder := p.OCFolderLineEdit
  { p with checkDirectoryCalls := p.checkDirectoryCalls ++ [folder] }

/-- The body of `FolderWizardTargetPage::slotDirCheckReply`. -/
def slotDirCheckReply (_url : String) (found : Bool) (p : FolderWizardTargetPage) :
    FolderWizardTargetPage :=
  let p1 := { p with _dirChecked := found }
  let p2 := if p1._dirChecked then { p1 with warnLabel := ⟨false, p1.warnLabel.text⟩ }
            else showWarn msgNotAvailable p1
  { p2 with completeChangedEmitted := p2.completeChangedEmitted + 1 }

end FolderWizardTargetPage

/-- What can happen to the target page in the remote-folder check: the user
changes the text of `OCFolderLineEdit` to `t` (the line edit then emits
`textChanged(t)`, connected to `slotFolderTextChanged`); `ms` milliseconds pass;
`_ownCloudDirCheck` emits `directoryExists(url, found)`, connected to
`slotDirCheckReply`. -/
inductive Event where
  | textEdited (t : String)
  | timeElapsed (ms : Nat)
  | dirCheckReplied (url : String) (found : Bool)
deriving DecidableEq, Repr

open FolderWizardTargetPage in
/-- One event on the target page.  When time passes, a running timer whose
remaining time is used up stops (it is single-shot) and emits `timeout()`,
connected to `slotTimerFires`. -/
def step (e : Event) (p : FolderWizardTargetPage) : FolderWizardTargetPage :=
  match e with
  | .textEdited t => slotFolderTextChanged t { p with OCFolderLineEdit := t }
  | .timeElapsed ms =>
    match p._timer with
    | none => p
    | some r => if r ≤ ms then slotTimerFires { p with _timer := none }
                else { p with _timer := some (r - ms) }
  | .dirCheckReplied url found => slotDirCheckReply url found p

/-- A sequence of events, the head first. -/
def run (es : List Event) (p : FolderWizardTargetPage) : FolderWizardTargetPage :=
  es.foldl (fun s e => step e s) p

/-- The three kinds of target of the specification. -/
inductive TargetKind where
  | Local
  | NetworkShare
  | RemoteServiceFolder
deriving DecidableEq, Repr

/-- The radio buttons of `p` select the kind `k` (`none`: no button is
checked).  The buttons exclude each other. -/
def HasKind (p : FolderWizardTargetPage) (k : Option TargetKind) : Prop :=
  (p.localFolderRadioBtn, p.urlFolderRadioBtn, p.OCRadioBtn) =
    match k with
    | some .Local => (true, false, false)
    | some .NetworkShare => (false, true, false)
    | some .RemoteServiceFolder => (false, false, true)
    | none => (false, false, false)

instance (p : FolderWizardTargetPage) (k : Option TargetKind) : Decidable (HasKind p k) := by
  unfold HasKind; exact inferInstance

/-- The completeness rule of the specification, per kind: written from the
words of the specification, to be compared with `isComplete`. -/
def specRule (env : Env) (k : Option TargetKind) (p : FolderWizardTargetPage) : Prop :=
  match k with
  | some .Local => env.isDir p.localFolder2LineEdit = true
  | some .NetworkShare =>
      env.urlIsValid p.urlFolderLineEdit = true ∧
        (env.urlScheme p.urlFolderLineEdit = "sftp" ∨ env.urlScheme p.urlFolderLineEdit = "smb")
  | some .RemoteServiceFolder => p.OCFolderLineEdit = "" ∨ p._dirChecked = true
  | none => False

instance (env : Env) (k : Option TargetKind) (p : FolderWizardTargetPage) :
    Decidable (specRule env k p) := by
  unfold specRule
  split <;> exact inferInstance

/-- The event is an edit of the remote folder to a non-empty text. -/
def Event.isNonEmptyEdit : Event → Bool
  | .textEdited t => !t.isEmpty
  | _ => false

/-- The event is an edit of the remote folder to the empty text. -/
def Event.isEmptyEdit : Event → Bool
  | .textEdited t => t.isEmpty
  | _ => false

/-- The event is a reply of the directory check. -/
def Event.isReply : Event → Bool
  | .dirCheckReplied _ _ => true
  | _ => false

/-- The events of a burst of edits: after the first one, each edit `(gap, t)`
comes `gap` milliseconds after the one before. -/
def burst (first : String) (rest : List (Nat × String)) : List Event :=
  .textEdited first :: rest.flatMap (fun x => [.timeElapsed x.1, .textEdited x.2])

/-- The text of the last edit of a burst. -/
def lastText (first : String) : List (Nat × String) → String
  | [] => first
  | x :: xs => lastText x.2 xs

/-- A target page with nothing selected or entered and the timer stopped. -/
def blankTarget : FolderWizardTargetPage :=
  ⟨false, false, false, "", "", "", false, none, ⟨false, ""⟩, [], 0⟩

/-- The blank target page with the remote-service folder selected. -/
def blankOC : FolderWizardTargetPage := { blankTarget with OCRadioBtn := true }

/-! ## Concrete environment used by the examples -/

/-- The text of `s` before its first colon: a stand-in for `QUrl::scheme`. -/
def schemeOf (s : String) : String := String.mk (s.data.takeWhile (fun c => c != ':'))

/-- An environment in which exactly the paths in `dirs` are directories, paths
are absolute and compared as written, and every text with a colon is a URL. -/
def envWith (dirs : List String) : Env where
  isDir := fun p => decide (p ∈ dirs)
  absoluteFilePath := fun p => p
  fileInfoEq := fun a b => decide (a = b)
  urlIsValid := fun u => u.data.contains ':'
  urlScheme := schemeOf

/-! ## Text search, as used to state what a warning contains -/

/-- Whether the characters `w` begin with the characters `m`. -/
def startsWith : List Char → List Char → Bool
  | _, [] => true
  | [], _ :: _ => false
  | c :: w, d :: m => c == d && startsWith w m

/-- Number of positions of `w` at which a copy of `m` begins. -/
def occurrencesAux (m : List Char) : List Char → Nat
  | [] => if m.isEmpty then 1 else 0
  | c :: w => (if startsWith (c :: w) m then 1 else 0) + occurrencesAux m w

/-- Number of occurrences of the text `m` in the text `w`. -/
def occurrences (w m : String) : Nat := occurrencesAux m.data w.data

/-- The text `w` contains the text `m`. -/
def containsText (w m : String) : Bool := decide (0 < occurrences w m)

/-! ## Lemmas: text search -/

lemma startsWith_append (m b : List Char) : startsWith (m ++ b) m = true := by
  induction m with
  | nil => cases b <;> rfl
  | cons c m ih => simp [startsWith, ih]

lemma occurrencesAux_pos_of_startsWith (m w : List Char) (h : startsWith w m = true) :
    0 < occurrencesAux m w := by
  cases w with
  | nil =>
    cases m with
    | nil => simp [occurrencesAux]
    | cons d m => simp [startsWith] at h
  | cons c w => simp [occurrencesAux, h]

lemma occurrencesAux_pos_append (a m b : List Char) : 0 < occurrencesAux m (a ++ (m ++ b)) := by
  induction a with
  | nil => exact occurrencesAux_pos_of_startsWith m _ (startsWith_append m b)
  | cons c a ih =>
    show 0 < (if startsWith (c :: (a ++ (m ++ b))) m then 1 else 0)
      + occurrencesAux m (a ++ (m ++ b))
    omega

lemma containsText_append (a m b : String) : containsText (a ++ m ++ b) m = true := by
  simp only [containsText, occurrences, String.data_append, List.append_assoc, decide_eq_true_eq]
  exact occurrencesAux_pos_append a.data m.data b.data

lemma containsText_append_left (a m : String) : containsText (a ++ m) m = true := by
  have h := containsText_append a m ""
  simpa using h

lemma containsText_append_right (m b : String) : containsText (m ++ b) m = true := by
  have h := containsText_append "" m b
  simpa using h

/-! ## Lemmas: the two loops of the source page -/

lemma pathLoop_false (env : Env) (sel : String) (l : List Folder) (w : String) :
    pathLoop env sel l (false, w) = (false, w) := by
  cases l <;> simp [pathLoop]

lemma pathLoop_true (env : Env) (sel : String) (l : List Folder) (w : String) :
    pathLoop env sel l (true, w) =
      if l.any (fun f => env.fileInfoEq f.path sel) then
        (false, w ++ msgDupPath (env.absoluteFilePath sel))
      else (true, w) := by
  induction l with
  | nil => simp [pathLoop]
  | cons f rest ih =>
    by_cases h : env.fileInfoEq f.path sel = true
    · simp [pathLoop, h, pathLoop_false]
    · simp [pathLoop, h, ih]

lemma aliasLoop_stopped (al : String) (l : List Folder) (ok : Bool) (w : String) :
    aliasLoop al l (ok, false, w) = (ok, false, w) := by
  cases l <;> simp [aliasLoop]

lemma aliasLoop_going (al : String) (l : List Folder) (ok : Bool) (w : String) :
    aliasLoop al l (ok, true, w) =
      if l.any (fun f => decide (f.aliasName = al)) then
        (false, false, w ++ msgDupAlias al)
      else (ok, true, w) := by
  induction l with
  | nil => simp [aliasLoop]
  | cons f rest ih =>
    by_cases h : f.aliasName = al
    · simp [aliasLoop, h, aliasLoop_stopped]
    · simp [aliasLoop, h, ih]

/-- The warning text and result of `isComplete` in closed form, for a non-null
folder map. -/
lemma isComplete_some (env : Env) (sel al : String) (map : List Folder) (lbl : Label) :
    FolderWizardSourcePage.isComplete env ⟨sel, al, some map, lbl⟩ =
      if env.isDir sel && !(map.any (fun f => env.fileInfoEq f.path sel)) && !al.isEmpty
          && !(map.any (fun f => decide (f.aliasName = al))) then
        (true, ⟨false, ""⟩)
      else
        (false, ⟨true,
          (if env.isDir sel then
              (if map.any (fun f => env.fileInfoEq f.path sel) then
                msgDupPath (env.absoluteFilePath sel) else "")
            else msgNoLocalDir)
          ++ (if al.isEmpty then msgEmptyAlias else "")
          ++ (if map.any (fun f => decide (f.aliasName = al)) then msgDupAlias al else "")⟩) := by
  simp only [FolderWizardSourcePage.isComplete]
  cases hd : env.isDir sel <;> cases he : al.isEmpty <;>
    cases hp : map.any (fun f => env.fileInfoEq f.path sel) <;>
    cases ha : map.any (fun f => decide (f.aliasName = al)) <;>
    simp [pathLoop_true, aliasLoop_going, hp, ha]

/-! ## Source page: theorems -/

lemma any_fileInfoEq_false_iff (env : Env) (sel : String) (map : List Folder) :
    map.any (fun f => env.fileInfoEq f.path sel) = false ↔
      ∀ f ∈ map, env.fileInfoEq f.path sel = false := by
  simp [List.any_eq_false]

lemma any_alias_false_iff (al : String) (map : List Folder) :
    map.any (fun f => decide (f.aliasName = al)) = false ↔ ∀ f ∈ map, f.aliasName ≠ al := by
  simp [List.any_eq_false]

/-- C1: with a folder map supplied, `FolderWizardSourcePage::isComplete` returns
true exactly when the local path is a directory, no configured folder has that
path (in the sense of `QFileInfo` equality), the alias is not empty and no
configured folder has that alias. -/
theorem sourcePage_isComplete_iff (env : Env) (sel al : String) (map : List Folder)
    (lbl : Label) :
    (FolderWizardSourcePage.isComplete env ⟨sel, al, some map, lbl⟩).1 = true ↔
      (env.isDir sel = true ∧ (∀ f ∈ map, env.fileInfoEq f.path sel = false) ∧
        al ≠ "" ∧ (∀ f ∈ map, f.aliasName ≠ al)) := by
  have hne : al ≠ "" ↔ al.isEmpty = false := by
    rw [Ne, ← String.isEmpty_iff]; simp
  rw [isComplete_some, ← any_fileInfoEq_false_iff, ← any_alias_false_iff, hne]
  cases env.isDir sel <;> cases al.isEmpty <;>
    cases map.any (fun f => env.fileInfoEq f.path sel) <;>
    cases map.any (fun f => decide (f.aliasName = al)) <;> simp

/-- An unused directory with an unused alias completes the source page. -/
theorem sourcePage_isComplete_iff_witness :
    (FolderWizardSourcePage.isComplete (envWith ["/new"])
        ⟨"/new", "b", some [⟨"/d", "a"⟩], ⟨false, ""⟩⟩).1 = true :=
  (sourcePage_isComplete_iff (envWith ["/new"]) "/new" "b" [⟨"/d", "a"⟩] ⟨false, ""⟩).mpr
    (by decide)

/-- C8, as the code refutes it: the configured folder `/gone` is not a
directory on disk; with the local path set to it the result is false, but the
warning is the no-directory message and has no duplicate-path message in it. -/
theorem dupPath_counterexample :
    (⟨"/gone", "a"⟩ : Folder) ∈ [(⟨"/gone", "a"⟩ : Folder)] ∧
    FolderWizardSourcePage.isComplete (envWith [])
        ⟨"/gone", "b", some [⟨"/gone", "a"⟩], ⟨false, ""⟩⟩
      = (false, ⟨true, "No local directory selected!"⟩) ∧
    containsText
        (FolderWizardSourcePage.isComplete (envWith [])
          ⟨"/gone", "b", some [⟨"/gone", "a"⟩], ⟨false, ""⟩⟩).2.text
        (msgDupPath ((envWith []).absoluteFilePath "/gone")) = false := by
  decide

/-- C8, amended: for an entry `e` of the folder map, `isComplete` with the local
path set to the path of `e` returns false and shows the warning.  When that
path is a directory (and equal to itself as a `QFileInfo`) the warning is one
duplicate-path message followed by the messages about the alias, so it
contains the duplicate-path message.  When it is not a directory the path
scan is skipped: the warning is the no-directory message followed by the
messages about the alias and nothing else, with no duplicate-path message
appended. -/
theorem dupPath_rejected (env : Env) (al : String) (map : List Folder) (lbl : Label)
    (e : Folder) (he : e ∈ map) :
    (env.isDir e.path = true → env.fileInfoEq e.path e.path = true →
      (FolderWizardSourcePage.isComplete env ⟨e.path, al, some map, lbl⟩).1 = false ∧
      (FolderWizardSourcePage.isComplete env ⟨e.path, al, some map, lbl⟩).2.visible = true ∧
      (FolderWizardSourcePage.isComplete env ⟨e.path, al, some map, lbl⟩).2.text =
        msgDupPath (env.absoluteFilePath e.path)
          ++ (if al.isEmpty then msgEmptyAlias else "")
          ++ (if map.any (fun f => decide (f.aliasName = al)) then msgDupAlias al else "") ∧
      containsText (FolderWizardSourcePage.isComplete env ⟨e.path, al, some map, lbl⟩).2.text
        (msgDupPath (env.absoluteFilePath e.path)) = true) ∧
    (env.isDir e.path = false →
      (FolderWizardSourcePage.isComplete env ⟨e.path, al, some map, lbl⟩).1 = false ∧
      (FolderWizardSourcePage.isComplete env ⟨e.path, al, some map, lbl⟩).2.visible = true ∧
      (FolderWizardSourcePage.isComplete env ⟨e.path, al, some map, lbl⟩).2.text =
        msgNoLocalDir
          ++ (if al.isEmpty then msgEmptyAlias else "")
          ++ (if map.any (fun f => decide (f.aliasName = al)) then msgDupAlias al else "")) := by
  constructor
  · intro hd hr
    have hany : map.any (fun f => env.fileInfoEq f.path e.path) = true :=
      List.any_eq_true.mpr ⟨e, he, hr⟩
    rw [isComplete_some]
    simp only [hd, hany, Bool.not_true, Bool.and_false, Bool.false_and, Bool.false_eq_true,
      if_false, if_true, true_and]
    rw [String.append_assoc]
    exact containsText_append_right _ _
  · intro hd
    rw [isComplete_some]
    simp only [hd, Bool.false_and, Bool.false_eq_true, if_false, true_and]

/-- A directory configured once is rejected with the duplicate-path message
alone; a configured folder whose directory is gone is rejected with the
no-directory message alone. -/
theorem dupPath_rejected_witness :
    ((FolderWizardSourcePage.isComplete (envWith ["/d"])
        ⟨"/d", "b", some [⟨"/d", "a"⟩], ⟨false, ""⟩⟩).1 = false ∧
      (FolderWizardSourcePage.isComplete (envWith ["/d"])
        ⟨"/d", "b", some [⟨"/d", "a"⟩], ⟨false, ""⟩⟩).2.text =
        "The local path /d is already a upload folder.<br/>Please pick another one!" ∧
      containsText
        (FolderWizardSourcePage.isComplete (envWith ["/d"])
          ⟨"/d", "b", some [⟨"/d", "a"⟩], ⟨false, ""⟩⟩).2.text
        (msgDupPath ((envWith ["/d"]).absoluteFilePath "/d")) = true) ∧
    ((FolderWizardSourcePage.isComplete (envWith [])
        ⟨"/gone", "b", some [⟨"/gone", "a"⟩], ⟨false, ""⟩⟩).1 = false ∧
      (FolderWizardSourcePage.isComplete (envWith [])
        ⟨"/gone", "b", some [⟨"/gone", "a"⟩], ⟨false, ""⟩⟩).2.text =
        "No local directory selected!") :=
  ⟨⟨((dupPath_rejected (envWith ["/d"]) "b" [⟨"/d", "a"⟩] ⟨false, ""⟩ ⟨"/d", "a"⟩
        (by decide)).1 (by decide) (by decide)).1,
    ((dupPath_rejected (envWith ["/d"]) "b" [⟨"/d", "a"⟩] ⟨false, ""⟩ ⟨"/d", "a"⟩
        (by decide)).1 (by decide) (by decide)).2.2.1.trans (by decide),
    ((dupPath_rejected (envWith ["/d"]) "b" [⟨"/d", "a"⟩] ⟨false, ""⟩ ⟨"/d", "a"⟩
        (by decide)).1 (by decide) (by decide)).2.2.2⟩,
   ⟨((dupPath_rejected (envWith []) "b" [⟨"/gone", "a"⟩] ⟨false, ""⟩ ⟨"/gone", "a"⟩
        (by decide)).2 (by decide)).1,
    ((dupPath_rejected (envWith []) "b" [⟨"/gone", "a"⟩] ⟨false, ""⟩ ⟨"/gone", "a"⟩
        (by decide)).2 (by decide)).2.2.trans (by decide)⟩⟩

/-- C9: for an entry `e` of the folder map, `isComplete` with the alias set to
the alias of `e` returns false and shows a warning that contains the
duplicate-alias message, whatever the local path is. -/
theorem dupAlias_rejected (env : Env) (sel : String) (map : List Folder) (lbl : Label)
    (e : Folder) (he : e ∈ map) :
    (FolderWizardSourcePage.isComplete env ⟨sel, e.aliasName, some map, lbl⟩).1 = false ∧
    (FolderWizardSourcePage.isComplete env ⟨sel, e.aliasName, some map, lbl⟩).2.visible = true ∧
    containsText (FolderWizardSourcePage.isComplete env ⟨sel, e.aliasName, some map, lbl⟩).2.text
      (msgDupAlias e.aliasName) = true := by
  have hany : map.any (fun f => decide (f.aliasName = e.aliasName)) = true :=
    List.any_eq_true.mpr ⟨e, he, by simp⟩
  rw [isComplete_some]
  simp only [hany, Bool.not_true, Bool.and_false, Bool.false_eq_true, if_false, if_true,
    true_and]
  exact containsText_append_left _ _

/-- The alias of a configured folder is rejected although the local path is an
unused directory. -/
theorem dupAlias_rejected_witness :
    (FolderWizardSourcePage.isComplete (envWith ["/new"])
        ⟨"/new", "a", some [⟨"/d", "a"⟩], ⟨false, ""⟩⟩).1 = false ∧
    (FolderWizardSourcePage.isComplete (envWith ["/new"])
        ⟨"/new", "a", some [⟨"/d", "a"⟩], ⟨false, ""⟩⟩).2.visible = true ∧
    containsText
        (FolderWizardSourcePage.isComplete (envWith ["/new"])
          ⟨"/new", "a", some [⟨"/d", "a"⟩], ⟨false, ""⟩⟩).2.text
        (msgDupAlias "a") = true :=
  dupAlias_rejected (envWith ["/new"]) "/new" [⟨"/d", "a"⟩] ⟨false, ""⟩ ⟨"/d", "a"⟩
    (by decide)

/-- C10, as the code refutes it: two configured folders have the selected
directory `/d` as their path, and the warning has one duplicate-path message
in it, not two. -/
theorem dupPath_scan_counterexample :
    (envWith ["/d"]).isDir "/d" = true ∧
    (List.filter (fun f => (envWith ["/d"]).fileInfoEq f.path "/d")
        [(⟨"/d", "a"⟩ : Folder), ⟨"/d", "b"⟩]).length = 2 ∧
    (FolderWizardSourcePage.isComplete (envWith ["/d"])
        ⟨"/d", "c", some [⟨"/d", "a"⟩, ⟨"/d", "b"⟩], ⟨false, ""⟩⟩).2.text
      = "The local path /d is already a upload folder.<br/>Please pick another one!" ∧
    occurrences
        (FolderWizardSourcePage.isComplete (envWith ["/d"])
          ⟨"/d", "c", some [⟨"/d", "a"⟩, ⟨"/d", "b"⟩], ⟨false, ""⟩⟩).2.text
        (msgDupPath ((envWith ["/d"]).absoluteFilePath "/d")) = 1 := by
  decide

/-- C10, amended: both scans stop at the first matching entry.  The alias scan
appends one duplicate-alias message when some entry has the alias and nothing
otherwise; the path scan appends one duplicate-path message when some entry
has the selected path and nothing otherwise; and for a selected directory with
`k ≥ 1` matching entries the warning is one duplicate-path message followed
by the messages about the alias. -/
theorem scans_stop_at_first_match (env : Env) (sel al : String) (map : List Folder)
    (lbl : Label) :
    (∀ ok w, aliasLoop al map (ok, true, w) =
      if map.any (fun f => decide (f.aliasName = al)) then (false, false, w ++ msgDupAlias al)
      else (ok, true, w)) ∧
    (∀ w, pathLoop env sel map (true, w) =
      if map.any (fun f => env.fileInfoEq f.path sel) then
        (false, w ++ msgDupPath (env.absoluteFilePath sel))
      else (true, w)) ∧
    (env.isDir sel = true →
      1 ≤ (map.filter (fun f => env.fileInfoEq f.path sel)).length →
      (FolderWizardSourcePage.isComplete env ⟨sel, al, some map, lbl⟩).2.text =
        msgDupPath (env.absoluteFilePath sel)
          ++ (if al.isEmpty then msgEmptyAlias else "")
          ++ (if map.any (fun f => decide (f.aliasName = al)) then msgDupAlias al else "")) := by
  refine ⟨fun ok w => aliasLoop_going al map ok w, fun w => pathLoop_true env sel map w, ?_⟩
  intro hd hk
  have hany : map.any (fun f => env.fileInfoEq f.path sel) = true := by
    have hpos : 0 < (map.filter (fun f => env.fileInfoEq f.path sel)).length := hk
    obtain ⟨f, hf⟩ := List.exists_mem_of_length_pos hpos
    rw [List.mem_filter] at hf
    exact List.any_eq_true.mpr ⟨f, hf.1, hf.2⟩
  rw [isComplete_some]
  simp [hd, hany]

/-- Two folders configured for the selected directory give one duplicate-path
message. -/
theorem scans_stop_at_first_match_witness :
    (FolderWizardSourcePage.isComplete (envWith ["/d"])
        ⟨"/d", "c", some [⟨"/d", "a"⟩, ⟨"/d", "b"⟩], ⟨false, ""⟩⟩).2.text =
      "The local path /d is already a upload folder.<br/>Please pick another one!" :=
  ((scans_stop_at_first_match (envWith ["/d"]) "/d" "c" [⟨"/d", "a"⟩, ⟨"/d", "b"⟩]
    ⟨false, ""⟩).2.2 (by decide) (by decide)).trans (by decide)

/-! ## Target page: lemmas -/

open FolderWizardTargetPage

lemma ne_empty_iff (t : String) : t ≠ "" ↔ t.isEmpty = false := by
  rw [Ne, ← String.isEmpty_iff]; simp

lemma hasKind_remote_iff (p : FolderWizardTargetPage) :
    HasKind p (some .RemoteServiceFolder) ↔
      p.localFolderRadioBtn = false ∧ p.urlFolderRadioBtn = false ∧ p.OCRadioBtn = true := by
  simp [HasKind]

lemma isComplete_remote (env : Env) (p : FolderWizardTargetPage)
    (hk : HasKind p (some .RemoteServiceFolder)) :
    isComplete env p = (p.OCFolderLineEdit.isEmpty || p._dirChecked) := by
  obtain ⟨h1, h2, h3⟩ := (hasKind_remote_iff p).mp hk
  cases he : p.OCFolderLineEdit.isEmpty <;> simp [isComplete, h1, h2, h3, he]

lemma hasKind_step (e : Event) (p : FolderWizardTargetPage) (k : Option TargetKind) :
    HasKind (step e p) k ↔ HasKind p k := by
  cases e with
  | textEdited t =>
    cases ht : t.isEmpty <;> simp [HasKind, step, slotFolderTextChanged, ht]
  | timeElapsed ms =>
    cases hr : p._timer with
    | none => simp [HasKind, step, hr]
    | some r =>
      by_cases h : r ≤ ms <;> simp [HasKind, step, hr, h, slotTimerFires]
  | dirCheckReplied url found =>
    cases found <;> simp [HasKind, step, slotDirCheckReply, showWarn]

lemma hasKind_run (es : List Event) (p : FolderWizardTargetPage) (k : Option TargetKind) :
    HasKind (run es p) k ↔ HasKind p k := by
  induction es generalizing p with
  | nil => rfl
  | cons e es ih =>
    show HasKind (run es (step e p)) k ↔ _
    rw [ih, hasKind_step]

lemma run_append (es fs : List Event) (p : FolderWizardTargetPage) :
    run (es ++ fs) p = run fs (run es p) := by
  simp [run, List.foldl_append]

lemma run_cons (e : Event) (es : List Event) (p : FolderWizardTargetPage) :
    run (e :: es) p = run es (step e p) := rfl

/-- Time passing in two parts is time passing once. -/
lemma step_timeElapsed_add (a b : Nat) (p : FolderWizardTargetPage) :
    step (.timeElapsed b) (step (.timeElapsed a) p) = step (.timeElapsed (a + b)) p := by
  cases hr : p._timer with
  | none => simp [step, hr]
  | some r =>
    by_cases h : r ≤ a
    · have h2 : r ≤ a + b := by omega
      simp [step, hr, h, h2, slotTimerFires]
    · by_cases h3 : r - a ≤ b
      · have h2 : r ≤ a + b := by omega
        simp [step, hr, h, h2, h3, slotTimerFires]
      · have h2 : ¬ r ≤ a + b := by omega
        have h4 : r - a - b = r - (a + b) := by omega
        simp [step, hr, h, h2, h3, h4]

/-- A non-empty edit starts the timer at 500 ms and makes no call. -/
lemma step_edit_nonempty (t : String) (ht : t ≠ "") (p : FolderWizardTargetPage) :
    (step (.textEdited t) p)._timer = some 500 ∧
    (step (.textEdited t) p).OCFolderLineEdit = t ∧
    (step (.textEdited t) p)._dirChecked = false ∧
    (step (.textEdited t) p).checkDirectoryCalls = p.checkDirectoryCalls := by
  have h := (ne_empty_iff t).mp ht
  simp [step, slotFolderTextChanged, h]

/-- While the timer is stopped and no non-empty edit comes, it stays stopped and
no call is made. -/
lemma run_timer_none (es : List Event) (p : FolderWizardTargetPage)
    (hes : ∀ e ∈ es, e.isNonEmptyEdit = false) (ht : p._timer = none) :
    (run es p)._timer = none ∧ (run es p).checkDirectoryCalls = p.checkDirectoryCalls := by
  induction es generalizing p with
  | nil => exact ⟨ht, rfl⟩
  | cons e es ih =>
    have he := hes e (List.mem_cons_self _ _)
    have hrest : ∀ x ∈ es, x.isNonEmptyEdit = false :=
      fun x hx => hes x (List.mem_cons_of_mem _ hx)
    have hstep : (step e p)._timer = none ∧
        (step e p).checkDirectoryCalls = p.checkDirectoryCalls := by
      cases e with
      | textEdited t =>
        have h : t.isEmpty = true := by simpa [Event.isNonEmptyEdit] using he
        simp [step, slotFolderTextChanged, h]
      | timeElapsed ms => simp [step, ht]
      | dirCheckReplied url found =>
        cases found <;> simp [step, slotDirCheckReply, showWarn, ht]
    rw [run_cons]
    obtain ⟨h1, h2⟩ := ih (step e p) hrest hstep.1
    exact ⟨h1, h2.trans hstep.2⟩

/-- With the timer at `r > 0` ms, the passing of time in parts `ds` makes no
call while the parts sum to less than `r`, and one call, with the text of the
line edit, once they reach `r`. -/
lemma run_elapses (ds : List Nat) (p : FolderWizardTargetPage) (r : Nat) (hr : 0 < r)
    (ht : p._timer = some r) :
    (run (ds.map Event.timeElapsed) p).checkDirectoryCalls =
      if ds.sum < r then p.checkDirectoryCalls
      else p.checkDirectoryCalls ++ [p.OCFolderLineEdit] := by
  induction ds generalizing p r with
  | nil => simp [run, hr]
  | cons d ds ih =>
    rw [List.map_cons, run_cons]
    by_cases h : r ≤ d
    · have hnone : (step (.timeElapsed d) p)._timer = none := by
        simp [step, ht, h, slotTimerFires]
      have hcalls : (step (.timeElapsed d) p).checkDirectoryCalls =
          p.checkDirectoryCalls ++ [p.OCFolderLineEdit] := by
        simp [step, ht, h, slotTimerFires]
      have hno : ∀ e ∈ ds.map Event.timeElapsed, e.isNonEmptyEdit = false := by
        intro e he
        obtain ⟨x, _, rfl⟩ := List.mem_map.mp he
        rfl
      rw [(run_timer_none _ _ hno hnone).2, hcalls]
      have : ¬ (d + ds.sum < r) := by omega
      simp [this]
    · have htimer : (step (.timeElapsed d) p)._timer = some (r - d) := by
        simp [step, ht, h]
      have hcalls : (step (.timeElapsed d) p).checkDirectoryCalls = p.checkDirectoryCalls := by
        simp [step, ht, h]
      have htext : (step (.timeElapsed d) p).OCFolderLineEdit = p.OCFolderLineEdit := by
        simp [step, ht, h]
      rw [ih (step (.timeElapsed d) p) (r - d) (by omega) htimer, hcalls, htext]
      have : d + ds.sum < r ↔ ds.sum < r - d := by omega
      simp [this]

/-- After edits to non-empty texts less than 500 ms apart the timer is at
500 ms, the line edit has the last text, and no call has been made. -/
lemma run_gaps (rest : List (Nat × String)) (p : FolderWizardTargetPage)
    (hrest : ∀ x ∈ rest, x.2 ≠ "" ∧ x.1 < 500) (ht : p._timer = some 500) :
    (run (rest.flatMap (fun x => [.timeElapsed x.1, .textEdited x.2])) p)._timer = some 500 ∧
    (run (rest.flatMap (fun x => [.timeElapsed x.1, .textEdited x.2])) p).OCFolderLineEdit
      = lastText p.OCFolderLineEdit rest ∧
    (run (rest.flatMap (fun x => [.timeElapsed x.1, .textEdited x.2])) p).checkDirectoryCalls
      = p.checkDirectoryCalls := by
  induction rest generalizing p with
  | nil => exact ⟨ht, rfl, rfl⟩
  | cons x xs ih =>
    obtain ⟨hx2, hx1⟩ := hrest x (List.mem_cons_self _ _)
    have hxs : ∀ y ∈ xs, y.2 ≠ "" ∧ y.1 < 500 :=
      fun y hy => hrest y (List.mem_cons_of_mem _ hy)
    have hlt : ¬ 500 ≤ x.1 := by omega
    have hc : (step (.timeElapsed x.1) p).checkDirectoryCalls = p.checkDirectoryCalls := by
      simp [step, ht, hlt]
    obtain ⟨e1, e2, _, e4⟩ := step_edit_nonempty x.2 hx2 (step (.timeElapsed x.1) p)
    have key := ih (step (.textEdited x.2) (step (.timeElapsed x.1) p)) hxs e1
    rw [e2, e4, hc] at key
    simpa [List.flatMap_cons, run_cons, lastText] using key

lemma run_burst (first : String) (rest : List (Nat × String)) (p : FolderWizardTargetPage)
    (hfirst : first ≠ "") (hrest : ∀ x ∈ rest, x.2 ≠ "" ∧ x.1 < 500) :
    (run (burst first rest) p)._timer = some 500 ∧
    (run (burst first rest) p).OCFolderLineEdit = lastText first rest ∧
    (run (burst first rest) p).checkDirectoryCalls = p.checkDirectoryCalls := by
  obtain ⟨e1, e2, _, e4⟩ := step_edit_nonempty first hfirst p
  have key := run_gaps rest (step (.textEdited first) p) hrest e1
  rw [e2, e4] at key
  simpa [burst, run_cons] using key

/-! ## Target page: theorems -/

/-- C2: for a target page whose radio buttons select the kind `k`,
`FolderWizardTargetPage::isComplete` is true exactly when the rule of the
specification for `k` holds; in particular, when `QUrl` finds
`sftp://host/path` valid with scheme `sftp` the network share
`sftp://host/path` is complete, and when it finds the scheme of
`ftp://host/path` to be `ftp` the network share `ftp://host/path` is not. -/
theorem targetPage_isComplete_rule (env : Env) (p : FolderWizardTargetPage) :
    (∀ k, HasKind p k → (isComplete env p = true ↔ specRule env k p)) ∧
    (HasKind p (some .NetworkShare) → p.urlFolderLineEdit = "sftp://host/path" →
      env.urlIsValid "sftp://host/path" = true → env.urlScheme "sftp://host/path" = "sftp" →
      isComplete env p = true) ∧
    (HasKind p (some .NetworkShare) → p.urlFolderLineEdit = "ftp://host/path" →
      env.urlScheme "ftp://host/path" = "ftp" →
      isComplete env p = false) := by
  refine ⟨?_, ?_, ?_⟩
  · intro k hk
    cases k with
    | none =>
      simp only [HasKind, Prod.mk.injEq] at hk
      simp [isComplete, specRule, hk.1, hk.2.1, hk.2.2]
    | some k =>
      cases k with
      | Local =>
        simp only [HasKind, Prod.mk.injEq] at hk
        simp [isComplete, specRule, hk.1]
      | NetworkShare =>
        simp only [HasKind, Prod.mk.injEq] at hk
        simp [isComplete, specRule, hk.1, hk.2.1]
      | RemoteServiceFolder =>
        rw [isComplete_remote env p hk]
        simp [specRule, String.isEmpty_iff]
  · intro hk hu hv hs
    simp only [HasKind, Prod.mk.injEq] at hk
    simp [isComplete, hk.1, hk.2.1, hu, hv, hs]
  · intro hk hu hs
    simp only [HasKind, Prod.mk.injEq] at hk
    simp [isComplete, hk.1, hk.2.1, hu, hs]

/-- The rule at the blank page with the network share selected, for the two
URLs of the specification. -/
theorem targetPage_isComplete_rule_witness :
    (isComplete (envWith []) { blankTarget with urlFolderRadioBtn := true } = true ↔
      specRule (envWith []) (some .NetworkShare)
        { blankTarget with urlFolderRadioBtn := true }) ∧
    isComplete (envWith [])
      { blankTarget with urlFolderRadioBtn := true, urlFolderLineEdit := "sftp://host/path" }
      = true ∧
    isComplete (envWith [])
      { blankTarget with urlFolderRadioBtn := true, urlFolderLineEdit := "ftp://host/path" }
      = false :=
  ⟨(targetPage_isComplete_rule (envWith [])
      { blankTarget with urlFolderRadioBtn := true }).1 (some .NetworkShare) (by decide),
   (targetPage_isComplete_rule (envWith [])
      { blankTarget with urlFolderRadioBtn := true,
                         urlFolderLineEdit := "sftp://host/path" }).2.1
      (by decide) rfl (by decide) (by decide),
   (targetPage_isComplete_rule (envWith [])
      { blankTarget with urlFolderRadioBtn := true,
                         urlFolderLineEdit := "ftp://host/path" }).2.2
      (by decide) rfl (by decide)⟩

/-- C3, as the code refutes it: with the remote-service folder selected, the
text is edited to `Doc`, the timer fires and the check of `Doc` is dispatched,
the text is edited to `Docx`, and the reply `(Doc, true)` arrives: the page is
complete although the text is `Docx`. -/
theorem stale_reply_counterexample :
    HasKind blankOC (some .RemoteServiceFolder) ∧
    (run [.textEdited "Doc", .timeElapsed 500] blankOC).checkDirectoryCalls = ["Doc"] ∧
    (run [.textEdited "Doc", .timeElapsed 500, .textEdited "Docx",
          .dirCheckReplied "Doc" true] blankOC).OCFolderLineEdit = "Docx" ∧
    (run [.textEdited "Doc", .timeElapsed 500, .textEdited "Docx",
          .dirCheckReplied "Doc" true] blankOC).checkDirectoryCalls = ["Doc"] ∧
    isComplete (envWith [])
      (run [.textEdited "Doc", .timeElapsed 500, .textEdited "Docx",
            .dirCheckReplied "Doc" true] blankOC) = true := by
  decide

/-- C3, amended: a reply of the directory check is applied whatever text it was
asked for.  With the remote-service folder selected, when the check of a
non-empty text `T` is dispatched (the timer fires `d ≥ 500` ms after the edit),
the text is then edited to a non-empty `T2`, `d2` more milliseconds pass and the
reply `(T, found)` arrives, then `_dirChecked` is `found` and the page is
complete exactly when `found` is true, the text being `T2`. -/
theorem stale_reply_applied (env : Env) (p : FolderWizardTargetPage) (T T2 : String)
    (d d2 : Nat) (found : Bool)
    (hk : HasKind p (some .RemoteServiceFolder)) (hT : T ≠ "") (hT2 : T2 ≠ "")
    (hd : 500 ≤ d) :
    (run [.textEdited T, .timeElapsed d] p).checkDirectoryCalls
      = p.checkDirectoryCalls ++ [T] ∧
    (run [.textEdited T, .timeElapsed d, .textEdited T2, .timeElapsed d2,
          .dirCheckReplied T found] p).OCFolderLineEdit = T2 ∧
    (run [.textEdited T, .timeElapsed d, .textEdited T2, .timeElapsed d2,
          .dirCheckReplied T found] p)._dirChecked = found ∧
    isComplete env (run [.textEdited T, .timeElapsed d, .textEdited T2, .timeElapsed d2,
          .dirCheckReplied T found] p) = found := by
  have h1 := (ne_empty_iff T).mp hT
  have h2 := (ne_empty_iff T2).mp hT2
  have hk2 := (hasKind_run [.textEdited T, .timeElapsed d, .textEdited T2, .timeElapsed d2,
          .dirCheckReplied T found] p _).mpr hk
  have htext : (run [.textEdited T, .timeElapsed d, .textEdited T2, .timeElapsed d2,
          .dirCheckReplied T found] p).OCFolderLineEdit = T2 := by
    by_cases hd2 : 500 ≤ d2 <;> cases found <;>
      simp [run, step, slotFolderTextChanged, slotTimerFires, slotDirCheckReply, showWarn,
        h1, h2, hd, hd2]
  have hflag : (run [.textEdited T, .timeElapsed d, .textEdited T2, .timeElapsed d2,
          .dirCheckReplied T found] p)._dirChecked = found := by
    by_cases hd2 : 500 ≤ d2 <;> cases found <;>
      simp [run, step, slotFolderTextChanged, slotTimerFires, slotDirCheckReply, showWarn,
        h1, h2, hd, hd2]
  refine ⟨?_, htext, hflag, ?_⟩
  · simp [run, step, slotFolderTextChanged, slotTimerFires, h1, hd]
  · rw [isComplete_remote env _ hk2, htext, hflag, h2]
    simp

/-- The stale reply `(Doc, true)` completes the page whose text is `Docx`. -/
theorem stale_reply_applied_witness :
    (run [.textEdited "Doc", .timeElapsed 500] blankOC).checkDirectoryCalls
      = blankOC.checkDirectoryCalls ++ ["Doc"] ∧
    (run [.textEdited "Doc", .timeElapsed 500, .textEdited "Docx", .timeElapsed 10,
          .dirCheckReplied "Doc" true] blankOC).OCFolderLineEdit = "Docx" ∧
    (run [.textEdited "Doc", .timeElapsed 500, .textEdited "Docx", .timeElapsed 10,
          .dirCheckReplied "Doc" true] blankOC)._dirChecked = true ∧
    isComplete (envWith []) (run [.textEdited "Doc", .timeElapsed 500, .textEdited "Docx",
          .timeElapsed 10, .dirCheckReplied "Doc" true] blankOC) = true :=
  stale_reply_applied (envWith []) blankOC "Doc" "Docx" 500 10 true
    (by decide) (by decide) (by decide) (by decide)

/-- C4: after a burst of edits of the remote folder to non-empty texts, each
less than 500 ms after the one before, and the passing of time in any parts
`ds` after the last edit, no call of `checkDirectory` has been made while the
parts sum to less than 500 ms, and exactly one call, with the text of the last
edit, has been made once they sum to 500 ms or more. -/
theorem debounce_single_probe (p : FolderWizardTargetPage) (first : String)
    (rest : List (Nat × String)) (ds : List Nat)
    (hfirst : first ≠ "") (hrest : ∀ x ∈ rest, x.2 ≠ "" ∧ x.1 < 500) :
    (run (burst first rest ++ ds.map Event.timeElapsed) p).checkDirectoryCalls =
      if ds.sum < 500 then p.checkDirectoryCalls
      else p.checkDirectoryCalls ++ [lastText first rest] := by
  obtain ⟨h1, h2, h3⟩ := run_burst first rest p hfirst hrest
  rw [run_append, run_elapses ds _ 500 (by decide) h1, h2, h3]

/-- The edits `D`, `Do`, `Doc`, 100 ms apart: no call 499 ms after the last
edit, one call, for `Doc`, 500 ms after it and later. -/
theorem debounce_single_probe_witness :
    (run (burst "D" [(100, "Do"), (100, "Doc")] ++ [Event.timeElapsed 499]) blankOC
      ).checkDirectoryCalls = [] ∧
    (run (burst "D" [(100, "Do"), (100, "Doc")] ++ [Event.timeElapsed 499, .timeElapsed 1])
      blankOC).checkDirectoryCalls = ["Doc"] ∧
    (run (burst "D" [(100, "Do"), (100, "Doc")] ++
      [Event.timeElapsed 499, .timeElapsed 1, .timeElapsed 5000])
      blankOC).checkDirectoryCalls = ["Doc"] :=
  ⟨debounce_single_probe blankOC "D" [(100, "Do"), (100, "Doc")] [499]
      (by decide) (by decide),
   debounce_single_probe blankOC "D" [(100, "Do"), (100, "Doc")] [499, 1]
      (by decide) (by decide),
   debounce_single_probe blankOC "D" [(100, "Do"), (100, "Doc")] [499, 1, 5000]
      (by decide) (by decide)⟩

/-- C5: on a target page with the remote-service folder selected, an edit of
the remote folder to the empty text stops the timer and leaves the page
complete, and no call of `checkDirectory` is made by any events that follow as
long as none of them is an edit to a non-empty text. -/
theorem empty_edit_cancels_probe (env : Env) (p : FolderWizardTargetPage)
    (hk : HasKind p (some .RemoteServiceFolder)) :
    (step (.textEdited "") p)._timer = none ∧
    isComplete env (step (.textEdited "") p) = true ∧
    (∀ es : List Event, (∀ e ∈ es, e.isNonEmptyEdit = false) →
      (run es (step (.textEdited "") p)).checkDirectoryCalls = p.checkDirectoryCalls) := by
  have h0 : ("" : String).isEmpty = true := by decide
  have ht : (step (.textEdited "") p)._timer = none := by
    simp [step, slotFolderTextChanged, h0]
  have hc : (step (.textEdited "") p).checkDirectoryCalls = p.checkDirectoryCalls := by
    simp [step, slotFolderTextChanged, h0]
  have hk2 := (hasKind_step (.textEdited "") p _).mpr hk
  refine ⟨ht, ?_, ?_⟩
  · rw [isComplete_remote env _ hk2]
    simp [step, slotFolderTextChanged, h0]
  · intro es hes
    rw [(run_timer_none es _ hes ht).2, hc]

/-- With the timer running for `Doc`, clearing the text stops it: time passing
and a late reply make no call. -/
theorem empty_edit_cancels_probe_witness :
    (step (.textEdited "") (step (.textEdited "Doc") blankOC))._timer = none ∧
    isComplete (envWith []) (step (.textEdited "") (step (.textEdited "Doc") blankOC)) = true ∧
    (run [.timeElapsed 1000, .dirCheckReplied "Doc" true, .textEdited "", .timeElapsed 1000]
        (step (.textEdited "") (step (.textEdited "Doc") blankOC))).checkDirectoryCalls
      = (step (.textEdited "Doc") blankOC).checkDirectoryCalls :=
  ⟨(empty_edit_cancels_probe (envWith []) (step (.textEdited "Doc") blankOC) (by decide)).1,
   (empty_edit_cancels_probe (envWith []) (step (.textEdited "Doc") blankOC) (by decide)).2.1,
   (empty_edit_cancels_probe (envWith []) (step (.textEdited "Doc") blankOC) (by decide)).2.2
      [.timeElapsed 1000, .dirCheckReplied "Doc" true, .textEdited "", .timeElapsed 1000]
      (by decide)⟩

/-- C6: `slotFolderTextChanged` leaves `_dirChecked` false whatever it was, and
so does the edit event; with the remote-service folder selected and a non-empty
text, the page is then not complete, and stays so over any events none of which
is a reply of the directory check or an edit to the empty text. -/
theorem edit_resets_dirChecked (p : FolderWizardTargetPage) (t : String) :
    (slotFolderTextChanged t p)._dirChecked = false ∧
    (step (.textEdited t) p)._dirChecked = false ∧
    (∀ env : Env, HasKind p (some .RemoteServiceFolder) → t ≠ "" →
      ∀ es : List Event, (∀ e ∈ es, e.isReply = false ∧ e.isEmptyEdit = false) →
        isComplete env (run es (step (.textEdited t) p)) = false) := by
  refine ⟨?_, ?_, ?_⟩
  · cases ht : t.isEmpty <;> simp [slotFolderTextChanged, ht]
  · cases ht : t.isEmpty <;> simp [step, slotFolderTextChanged, ht]
  · intro env hk ht es hes
    have hk2 := (hasKind_run es (step (.textEdited t) p) _).mpr
      ((hasKind_step (.textEdited t) p _).mpr hk)
    obtain ⟨_, h2, h3, _⟩ := step_edit_nonempty t ht p
    have hinv : ∀ (es : List Event) (s : FolderWizardTargetPage),
        (∀ e ∈ es, e.isReply = false ∧ e.isEmptyEdit = false) →
        s.OCFolderLineEdit.isEmpty = false → s._dirChecked = false →
        (run es s).OCFolderLineEdit.isEmpty = false ∧ (run es s)._dirChecked = false := by
      intro es
      induction es with
      | nil => intro s _ ha hb; exact ⟨ha, hb⟩
      | cons e es ih =>
        intro s hall ha hb
        obtain ⟨hr, he⟩ := hall e (List.mem_cons_self _ _)
        rw [run_cons]
        apply ih _ (fun x hx => hall x (List.mem_cons_of_mem _ hx))
        · cases e with
          | textEdited u =>
            have hu : u.isEmpty = false := by simpa [Event.isEmptyEdit] using he
            simp [step, slotFolderTextChanged, hu]
          | timeElapsed ms =>
            cases hti : s._timer with
            | none => simpa [step, hti] using ha
            | some r => by_cases hle : r ≤ ms <;> simpa [step, hti, hle, slotTimerFires] using ha
          | dirCheckReplied url found => simp [Event.isReply] at hr
        · cases e with
          | textEdited u =>
            cases hu : u.isEmpty <;> simp [step, slotFolderTextChanged, hu]
          | timeElapsed ms =>
            cases hti : s._timer with
            | none => simpa [step, hti] using hb
            | some r => by_cases hle : r ≤ ms <;> simpa [step, hti, hle, slotTimerFires] using hb
          | dirCheckReplied url found => simp [Event.isReply] at hr
    obtain ⟨ha, hb⟩ := hinv es (step (.textEdited t) p) hes
      (by rw [h2]; exact (ne_empty_iff t).mp ht) h3
    rw [isComplete_remote env _ hk2, ha, hb]
    rfl

/-- After a confirmed `Doc` the edit to `Docx` makes the page incomplete, and
the timer firing does not change that. -/
theorem edit_resets_dirChecked_witness :
    isComplete (envWith [])
      (run [.timeElapsed 500, .textEdited "Docxy", .timeElapsed 100]
        (step (.textEdited "Docx") { blankOC with OCFolderLineEdit := "Doc", _dirChecked := true }))
      = false :=
  (edit_resets_dirChecked { blankOC with OCFolderLineEdit := "Doc", _dirChecked := true }
    "Docx").2.2 (envWith []) (by decide) (by decide)
    [.timeElapsed 500, .textEdited "Docxy", .timeElapsed 100] (by decide)

/-- C7: on a reply `(url, found)` of the directory check, with the
remote-service folder selected and a non-empty text, `_dirChecked` becomes
`found`; when `found` is true the page is complete and the warning label is
hidden, and when it is false the page is not complete and the warning label is
shown with the folder-not-available message. -/
theorem reply_sets_dirChecked (env : Env) (p : FolderWizardTargetPage) (url : String)
    (found : Bool) (hk : HasKind p (some .RemoteServiceFolder))
    (hne : p.OCFolderLineEdit ≠ "") :
    (slotDirCheckReply url found p)._dirChecked = found ∧
    (found = true →
      isComplete env (slotDirCheckReply url found p) = true ∧
      (slotDirCheckReply url found p).warnLabel.visible = false) ∧
    (found = false →
      isComplete env (slotDirCheckReply url found p) = false ∧
      (slotDirCheckReply url found p).warnLabel
        = ⟨true, "The folder is not available on your ownCloud. Please create it."⟩) := by
  have hk2 : HasKind (slotDirCheckReply url found p) (some .RemoteServiceFolder) :=
    (hasKind_step (.dirCheckReplied url found) p _).mpr hk
  have he := (ne_empty_iff _).mp hne
  refine ⟨?_, ?_, ?_⟩
  · cases found <;> simp [slotDirCheckReply, showWarn]
  · intro hf
    subst hf
    rw [isComplete_remote env _ hk2]
    simp [slotDirCheckReply]
  · intro hf
    subst hf
    rw [isComplete_remote env _ hk2]
    simp [slotDirCheckReply, showWarn, he, msgNotAvailable]

/-- The replies `(Docs, true)` and `(Docs, false)` for the text `Docs`. -/
theorem reply_sets_dirChecked_witness :
    (isComplete (envWith [])
        (slotDirCheckReply "Docs" true { blankOC with OCFolderLineEdit := "Docs" }) = true ∧
      (slotDirCheckReply "Docs" true
        { blankOC with OCFolderLineEdit := "Docs" }).warnLabel.visible = false) ∧
    (isComplete (envWith [])
        (slotDirCheckReply "Docs" false { blankOC with OCFolderLineEdit := "Docs" }) = false ∧
      (slotDirCheckReply "Docs" false { blankOC with OCFolderLineEdit := "Docs" }).warnLabel
        = ⟨true, "The folder is not available on your ownCloud. Please create it."⟩) :=
  ⟨(reply_sets_dirChecked (envWith []) { blankOC with OCFolderLineEdit := "Docs" } "Docs" true
      (by decide) (by decide)).2.1 rfl,
   (reply_sets_dirChecked (envWith []) { blankOC with OCFolderLineEdit := "Docs" } "Docs" false
      (by decide) (by decide)).2.2 rfl⟩

end Mirall
